import Mathlib

/-!
Verification of the harharhar capture pipeline (`inject/intercept.js` and
`ui/main.js`) against its natural-language specification.

The JavaScript source is shallowly embedded: each wrapper or event handler
becomes a Lean function over explicit state; the possibility that a call into
the Tauri IPC bridge (`invoke`) throws is modelled by a Boolean oracle, one
Boolean per `invoke` call; JavaScript exceptions are modelled with `Except`.
Exchanges fed to the delivery buffer are identified by their arrival sequence
number (a `Nat`), since the buffer's behaviour does not inspect entry contents.
-/

namespace Harharhar

/-! ## Delivery buffer (`send` in intercept.js)

State of the capture buffer: `buffer` models `_buffer` (queued entries, front
first), `delivered` is the trace of entries handed to
`invoke('save_capture_data', ...)` successfully, in order; `nextId` numbers
the next enqueued entry with its global arrival index. -/

structure BufState where
  buffer : List Nat
  delivered : List Nat
  nextId : Nat
deriving DecidableEq

/-- Result of the `while (_buffer.length > 0) invoke(_buffer.shift())` loop:
`flushed` are the entries delivered before any exception, `rest` is what is
left in `_buffer` when the loop stops (on a throw, the shifted entry is gone:
neither delivered nor re-buffered), `remOracle` the unconsumed invoke
outcomes, `threw` whether an exception escaped the loop. -/
structure FlushResult where
  flushed : List Nat
  rest : List Nat
  remOracle : List Bool
  threw : Bool
deriving DecidableEq

/-- The flush loop of `send` (and of the 50 ms interval timer): repeatedly
shift the front of the buffer and invoke the IPC sink with it; the oracle
says whether each invoke returns normally (`true`) or throws (`false`). -/
def flushLoop : List Nat → List Bool → FlushResult
  | [], os => ⟨[], [], os, false⟩
  | b :: rest, os =>
    if os.headD true then
      let fr := flushLoop rest os.tail
      ⟨b :: fr.flushed, fr.rest, fr.remOracle, fr.threw⟩
    else
      ⟨[], rest, os.tail, true⟩

/-- The `try` block of `send(entry)`: if the IPC bridge object is present
(`ipc`), flush the buffer and then invoke the sink with `entry`; otherwise
push `entry` onto the buffer.  `.error (buf, del)` models a JavaScript
exception escaping the try block with `_buffer = buf` and delivery trace
`del` at the moment of the throw. -/
def sendTryBlock (ipc : Bool) (oracle : List Bool) (buffer delivered : List Nat)
    (entry : Nat) : Except (List Nat × List Nat) (List Nat × List Nat) :=
  if ipc then
    let fr := flushLoop buffer oracle
    if fr.threw then
      Except.error (fr.rest, delivered ++ fr.flushed)
    else if fr.remOracle.headD true then
      Except.ok ([], delivered ++ fr.flushed ++ [entry])
    else
      Except.error ([], delivered ++ fr.flushed)
  else
    Except.ok (buffer ++ [entry], delivered)

/-- `send(entry)` of intercept.js, whole: the try block plus the
`catch (_) { _buffer.push(entry) }` handler.  The handler itself cannot
throw, so `sendJS` is a total function: no exception reaches `send`'s
caller. -/
def sendJS (ipc : Bool) (oracle : List Bool) (s : BufState) : BufState :=
  match sendTryBlock ipc oracle s.buffer s.delivered s.nextId with
  | Except.ok (b, d) => ⟨b, d, s.nextId + 1⟩
  | Except.error (b, d) => ⟨b ++ [s.nextId], d, s.nextId + 1⟩

/-- The retry timer installed by intercept.js (`setInterval(..., 50)`): when
the IPC bridge is present and the buffer nonempty, drain the buffer.  The
timer body has no try/catch: a throw aborts the loop (the shifted entry is
lost) and leaves the remaining buffer for the next tick. -/
def timerFlush (ipc : Bool) (oracle : List Bool) (s : BufState) : BufState :=
  if ipc && !s.buffer.isEmpty then
    let fr := flushLoop s.buffer oracle
    ⟨fr.rest, s.delivered ++ fr.flushed, s.nextId⟩
  else
    s

/-- One event of the buffer's life: an `enqueue` (a `send` call, with the
IPC-availability and invoke outcomes at that moment) or a tick of the retry
timer. -/
inductive BufEvent
  | send (ipc : Bool) (oracle : List Bool)
  | timer (ipc : Bool) (oracle : List Bool)
deriving DecidableEq

def bufStep (s : BufState) : BufEvent → BufState
  | BufEvent.send ipc oracle => sendJS ipc oracle s
  | BufEvent.timer ipc oracle => timerFlush ipc oracle s

def initBuf : BufState := ⟨[], [], 0⟩

/-- Run the buffer from its initial state through a list of events. -/
def runBuf (evs : List BufEvent) : BufState :=
  evs.foldl bufStep initBuf

/-- Invariant: the delivered trace followed by the pending buffer is strictly
increasing in arrival index, and every tracked index is below `nextId`. -/
def BufInv (s : BufState) : Prop :=
  (s.delivered ++ s.buffer).Pairwise (· < ·) ∧
    ∀ x ∈ s.delivered ++ s.buffer, x < s.nextId

/-! ## Transport observers (fetch wrapper, XHR wrapper, perf fallback)

An `Entry` is the record object intercept.js passes to `send(...)`; field
names follow the source. -/

structure Entry where
  type : String
  method : String
  url : String
  requestHeaders : List (String × String)
  requestBody : Option String
  status : Nat
  statusText : String
  responseHeaders : List (String × String)
  responseBody : Option String
  duration : Nat
  timestamp : String
  transferSize : Nat := 0
deriving DecidableEq

/-- A JavaScript error value, as observed by the wrappers (`err.message`). -/
structure JsError where
  message : String
deriving DecidableEq

/-- The value the underlying `_fetch` resolves with on success. -/
structure JsResponse where
  status : Nat
  statusText : String
  headers : List (String × String)
  body : String
deriving DecidableEq

/-- Outcome of one call to the unwrapped primitive `_fetch`. -/
inductive FetchOutcome
  | ok (res : JsResponse)
  | err (e : JsError)
deriving DecidableEq

/-- The request data the wrapper extracts from its arguments
(`new Request(...args)` then method/url/headers/text). -/
structure FetchArgs where
  method : String
  url : String
  requestHeaders : List (String × String)
  requestBody : Option String
deriving DecidableEq

/-- What the caller of (unwrapped) `fetch` observes: the resolved response,
or the rejection error. -/
def FetchOutcome.toResult : FetchOutcome → Except JsError JsResponse
  | FetchOutcome.ok res => Except.ok res
  | FetchOutcome.err e => Except.error e

/-- The `window.fetch` wrapper of intercept.js: runs the underlying fetch,
emits exactly one capture entry (success branch or catch branch), and
returns the underlying response (`return res`) or rethrows the original
error (`throw err`).  `textOk` models whether `clone.text()` succeeds
(its failure leaves `responseBody` null and nothing else); `dur` and `ts`
are the measured duration and wall-clock timestamp.  The returned pair is
(caller-visible result, the entries passed to `send`, in order). -/
def fetchWrapper (args : FetchArgs) (textOk : Bool) (dur : Nat) (ts : String)
    (outcome : FetchOutcome) : Except JsError JsResponse × List Entry :=
  match outcome with
  | FetchOutcome.ok res =>
    (Except.ok res,
      [{ type := "fetch", method := args.method, url := args.url,
         requestHeaders := args.requestHeaders, requestBody := args.requestBody,
         status := res.status, statusText := res.statusText,
         responseHeaders := res.headers,
         responseBody := if textOk then some (res.body.take 500000) else none,
         duration := dur, timestamp := ts }])
  | FetchOutcome.err e =>
    (Except.error e,
      [{ type := "fetch", method := args.method, url := args.url,
         requestHeaders := args.requestHeaders, requestBody := args.requestBody,
         status := 0, statusText := e.message,
         responseHeaders := [], responseBody := none,
         duration := dur, timestamp := ts }])

/-- One line of `xhr.getAllResponseHeaders()`: split at the first `: `
(the source uses `l.indexOf(': ')` and skips lines where it is `<= 0`). -/
def parseHeaderLine (l : String) : Option (String × String) :=
  match l.splitOn ": " with
  | k :: v :: rest =>
    if k.isEmpty then none else some (k, String.intercalate ": " (v :: rest))
  | _ => none

/-- The loadend handler's response-header parse: split the raw header block
on CRLF and keep the well-formed lines. -/
def parseXhrHeaders (raw : String) : List (String × String) :=
  (raw.splitOn "\x0d\n").filterMap parseHeaderLine

/-- The state of an XMLHttpRequest when its `loadend` event fires. -/
structure XhrOutcome where
  status : Nat
  statusText : String
  responseHeadersRaw : String
  responseText : String
deriving DecidableEq

/-- Closure state captured by one wrapped `send` call: the send-time clock
reading `t0` and the `body` argument.  The `loadend` listener that this
send registers closes over exactly these two values; everything else it
emits is read from the XHR object when the listener fires. -/
structure XhrClosure where
  t0 : Nat
  body : Option String
deriving DecidableEq

/-- The `xhr-start` entry the wrapped send emits immediately, before the
network operation (status 0, statusText "pending"). -/
def xhrStartEntry (method url : String) (hdrs : List (String × String))
    (body : Option String) (ts0 : String) : Entry :=
  { type := "xhr-start", method := method, url := url,
    requestHeaders := hdrs, requestBody := body.map (fun b => b.take 500000),
    status := 0, statusText := "pending", responseHeaders := [],
    responseBody := none, duration := 0, timestamp := ts0 }

/-- The entry one loadend listener emits when it fires: current request
state (`__m`, `__u`, `__h`, status, statusText, response headers and text)
is read from the object at fire time; the request body and start time come
from the listener's own closure. -/
def xhrLoadendEntry (method url : String) (hdrs : List (String × String))
    (c : XhrClosure) (outcome : XhrOutcome) (now : Nat) (ts1 : String) : Entry :=
  { type := "xhr", method := method, url := url,
    requestHeaders := hdrs, requestBody := c.body.map (fun b => b.take 500000),
    status := outcome.status, statusText := outcome.statusText,
    responseHeaders := parseXhrHeaders outcome.responseHeadersRaw,
    responseBody := some (outcome.responseText.take 500000),
    duration := now - c.t0, timestamp := ts1 }

/-- The wrapped `XMLHttpRequest.prototype.send`: emit `xhr-start`
immediately and register one more loadend listener.  The listener is
persistent — the wrapper never removes it and does not pass `once` — so on
a reused object the listeners of earlier sends remain.  Returns the new
listener list and the entry passed to `send`. -/
def xhrSendCall (listeners : List XhrClosure) (method url : String)
    (hdrs : List (String × String)) (body : Option String) (t0 : Nat)
    (ts0 : String) : List XhrClosure × Entry :=
  (listeners ++ [⟨t0, body⟩], xhrStartEntry method url hdrs body ts0)

/-- The `loadend` event of the current operation: every listener
accumulated on the object fires, in registration order, each emitting one
final `xhr` entry. -/
def xhrLoadendEntries (listeners : List XhrClosure) (method url : String)
    (hdrs : List (String × String)) (outcome : XhrOutcome) (now : Nat)
    (ts1 : String) : List Entry :=
  listeners.map (fun c => xhrLoadendEntry method url hdrs c outcome now ts1)

/-- One logical XHR operation — a wrapped send followed by its `loadend` —
on an object carrying `prev` listeners from earlier sends (`prev = []` for
a freshly created object).  Arguments mirror what the wrapper reads:
`__m`/`__u`/`__h` captured by `open`/`setRequestHeader`, the send `body`,
the loadend-time outcome and clock, and the two wall-clock timestamps.
Returns the listener list afterwards and the entries passed to `send` for
this operation, in order. -/
def xhrOperation (prev : List XhrClosure) (method url : String)
    (hdrs : List (String × String)) (body : Option String) (t0 : Nat)
    (outcome : XhrOutcome) (now : Nat) (ts0 ts1 : String) :
    List XhrClosure × List Entry :=
  let sc := xhrSendCall prev method url hdrs body t0 ts0
  (sc.1, sc.2 :: xhrLoadendEntries sc.1 method url hdrs outcome now ts1)

/-- A PerformanceResourceTiming entry as read by `emitPerfEntry`. -/
structure PerfEntry where
  initiatorType : String
  name : String
  responseStatus : Nat
  duration : Nat
  transferSize : Nat
deriving DecidableEq

/-- `emitPerfEntry` of intercept.js: the fallback resource-timing observer.
`capturedUrls` models the `_capturedUrls` set maintained by the fetch and
XHR wrappers.  Returns the entry passed to `send`, or `none` when the
function returns without sending. -/
def emitPerfEntry (capturedUrls : List String) (e : PerfEntry) (ts : String) :
    Option Entry :=
  if e.initiatorType ≠ "xmlhttprequest" ∧ e.initiatorType ≠ "fetch" then none
  else if e.name ∈ capturedUrls then none
  else some
    { type := "perf-" ++ e.initiatorType, method := "GET", url := e.name,
      requestHeaders := [], requestBody := none,
      status := e.responseStatus, statusText := "",
      responseHeaders := [], responseBody := none,
      duration := e.duration, timestamp := ts,
      transferSize := e.transferSize }

/-! ## Domain router (escalation listeners in ui/main.js)

State of the naming/escalation machinery: `pendingDomains`, `domainQueue`
and `modalActive` are the globals of ui/main.js; `timerSet` says whether
`_domainBatchTimer` has a pending (not yet fired, not cleared) timeout. -/

structure RouterState where
  pendingDomains : List String
  domainQueue : List String
  modalActive : Bool
  timerSet : Bool
deriving DecidableEq

/-- An escalation shown to the user: `blocking` is `showNamingModal` raised
by the `name-app-before-navigate` listener (navigation held); `batched` is
the modal raised by `processNextDomain`, carrying every domain spliced out
of the queue. -/
inductive Escalation
  | blocking (domain : String)
  | batched (domains : List String)
deriving DecidableEq

def Escalation.domains : Escalation → List String
  | Escalation.blocking d => [d]
  | Escalation.batched ds => ds

/-- UI events relevant to the router: the two Tauri events carrying a
domain, the expiry of the 1-second batch timer, and the user answering (or
skipping) a batched modal, which resets `modalActive` and re-runs
`processNextDomain`. -/
inductive RouterEvent
  | beforeNavigate (d : String)
  | unknownDomain (d : String)
  | timerFire
  | modalResolved
deriving DecidableEq

/-- `processNextDomain` of ui/main.js: if no modal is showing and the queue
is nonempty, splice out the whole queue and raise one batched modal for it.
(Whether the modal offers existing apps or asks for a new name, it covers
exactly the spliced domains.) -/
def processNextDomain (s : RouterState) : RouterState × List Escalation :=
  if s.modalActive || s.domainQueue.isEmpty then (s, [])
  else ({ s with modalActive := true, domainQueue := [] },
        [Escalation.batched s.domainQueue])

/-- One step of the router: the two event listeners guard on
`pendingDomains.has(domain)` and add the domain before acting; the
`unknown-domain` listener also queues the domain and (re)arms the 1-second
timer; timer expiry and modal resolution both run `processNextDomain`. -/
def routerStep (s : RouterState) : RouterEvent → RouterState × List Escalation
  | RouterEvent.beforeNavigate d =>
    if d ∈ s.pendingDomains then (s, [])
    else ({ s with pendingDomains := d :: s.pendingDomains }, [Escalation.blocking d])
  | RouterEvent.unknownDomain d =>
    if d ∈ s.pendingDomains then (s, [])
    else ({ s with
              pendingDomains := d :: s.pendingDomains,
              domainQueue := s.domainQueue ++ [d],
              timerSet := true }, [])
  | RouterEvent.timerFire =>
    if s.timerSet then processNextDomain { s with timerSet := false } else (s, [])
  | RouterEvent.modalResolved =>
    processNextDomain { s with modalActive := false }

def initRouter : RouterState := ⟨[], [], false, false⟩

/-- One fold step of a router run: apply the event, accumulate escalations. -/
def runStep (acc : RouterState × List Escalation) (ev : RouterEvent) :
    RouterState × List Escalation :=
  ((routerStep acc.1 ev).1, acc.2 ++ (routerStep acc.1 ev).2)

/-- Run the router over a list of events, collecting all escalations raised,
in order. -/
def runRouter (s : RouterState) (evs : List RouterEvent) :
    RouterState × List Escalation :=
  evs.foldl runStep (s, [])

/-- How many times domain `d` is named across a list of escalations. -/
def escCount (d : String) (es : List Escalation) : Nat :=
  (es.map (fun e => e.domains.count d)).sum

/-- Invariant tying the escalations already raised to the router state: a
domain is named at most once across raised escalations and the pending
queue together, and once it is named (or queued) it is in
`pendingDomains`. -/
def routerInv (d : String) (s : RouterState) (es : List Escalation) : Prop :=
  escCount d es + s.domainQueue.count d ≤ 1 ∧
    (1 ≤ escCount d es + s.domainQueue.count d → d ∈ s.pendingDomains)

/-! ## Application-name normalization (ui/main.js)

`showNamingModal`'s `submit` and `showAddDomainModal`'s `createNew` both
run `input.value.trim().toLowerCase().replace(/[^a-z0-9-]/g, '-')` and bail
out (refocusing the input, calling nothing) when the result is empty. -/

/-- Characters the name-character class `[a-z0-9-]` accepts. -/
def isNameChar (c : Char) : Bool :=
  (('a' ≤ c && c ≤ 'z') || ('0' ≤ c && c ≤ '9') || c == '-')

/-- `String.prototype.trim`: drop leading and trailing whitespace. -/
def jsTrim (s : String) : String :=
  String.mk (((s.data.dropWhile Char.isWhitespace).reverse.dropWhile
    Char.isWhitespace).reverse)

/-- `value.trim().toLowerCase().replace(/[^a-z0-9-]/g, '-')`.  `Char.toLower`
models `String.prototype.toLowerCase` (exact on ASCII; a non-ASCII letter
is replaced by `-` in the next step either way). -/
def normalizeName (s : String) : String :=
  String.mk (((jsTrim s).data.map Char.toLower).map
    (fun c => if isNameChar c then c else '-'))

/-- The `submit`/`createNew` handler: the name actually passed on to
`invoke('register_app', ...)`, or `none` when the handler rejects the input
and returns without registering. -/
def submitName (input : String) : Option String :=
  let name := normalizeName input
  if name = "" then none else some name

/-! ## Helper lemmas -/

theorem flushLoop_sublist (buf : List Nat) (os : List Bool) :
    List.Sublist ((flushLoop buf os).flushed ++ (flushLoop buf os).rest) buf := by
  induction buf generalizing os with
  | nil => simp [flushLoop]
  | cons b rest ih =>
    simp only [flushLoop]
    by_cases h : os.headD true
    · simp only [h, if_true]
      exact List.Sublist.cons₂ b (ih os.tail)
    · simp only [h, if_false]
      simp

theorem flushLoop_flushed_sublist (buf : List Nat) (os : List Bool) :
    List.Sublist (flushLoop buf os).flushed buf :=
  (List.sublist_append_left _ _).trans (flushLoop_sublist buf os)

theorem sendJS_concat_sublist (ipc : Bool) (oracle : List Bool) (s : BufState) :
    List.Sublist ((sendJS ipc oracle s).delivered ++ (sendJS ipc oracle s).buffer)
      (s.delivered ++ s.buffer ++ [s.nextId]) := by
  cases ipc with
  | false =>
    simp only [sendJS, sendTryBlock, Bool.false_eq_true, if_false]
    rw [List.append_assoc]
  | true =>
    simp only [sendJS, sendTryBlock, if_true]
    by_cases ht : (flushLoop s.buffer oracle).threw
    · simp only [ht, if_true]
      have h1 : List.Sublist
          (((flushLoop s.buffer oracle).flushed ++ (flushLoop s.buffer oracle).rest) ++ [s.nextId])
          (s.buffer ++ [s.nextId]) :=
        (flushLoop_sublist s.buffer oracle).append_right [s.nextId]
      have h2 := (List.append_sublist_append_left s.delivered).2 h1
      simpa [List.append_assoc] using h2
    · simp only [ht, if_false]
      by_cases ho : (flushLoop s.buffer oracle).remOracle.headD true
      · simp only [ho, if_true]
        have h1 : List.Sublist ((flushLoop s.buffer oracle).flushed ++ [s.nextId])
            (s.buffer ++ [s.nextId]) :=
          (flushLoop_flushed_sublist s.buffer oracle).append_right [s.nextId]
        have h2 := (List.append_sublist_append_left s.delivered).2 h1
        simpa [List.append_assoc] using h2
      · simp only [ho, if_false]
        have h1 : List.Sublist ((flushLoop s.buffer oracle).flushed ++ [s.nextId])
            (s.buffer ++ [s.nextId]) :=
          (flushLoop_flushed_sublist s.buffer oracle).append_right [s.nextId]
        have h2 := (List.append_sublist_append_left s.delivered).2 h1
        simpa [List.append_assoc] using h2

theorem sendJS_nextId (ipc : Bool) (oracle : List Bool) (s : BufState) :
    (sendJS ipc oracle s).nextId = s.nextId + 1 := by
  unfold sendJS
  cases h : sendTryBlock ipc oracle s.buffer s.delivered s.nextId with
  | ok p => cases p; rfl
  | error p => cases p; rfl

theorem timerFlush_concat_sublist (ipc : Bool) (oracle : List Bool) (s : BufState) :
    List.Sublist ((timerFlush ipc oracle s).delivered ++ (timerFlush ipc oracle s).buffer)
      (s.delivered ++ s.buffer) := by
  unfold timerFlush
  by_cases h : (ipc && !s.buffer.isEmpty) = true
  · simp only [h, if_true]
    have h2 := (List.append_sublist_append_left s.delivered).2 (flushLoop_sublist s.buffer oracle)
    simpa [List.append_assoc] using h2
  · simp only [h, if_false]
    exact List.Sublist.refl _

theorem timerFlush_nextId (ipc : Bool) (oracle : List Bool) (s : BufState) :
    (timerFlush ipc oracle s).nextId = s.nextId := by
  unfold timerFlush
  by_cases h : (ipc && !s.buffer.isEmpty) = true
  · simp [h]
  · simp [h]

theorem bufInv_pairwise_snoc (s : BufState) (h : BufInv s) :
    (s.delivered ++ s.buffer ++ [s.nextId]).Pairwise (· < ·) := by
  rw [List.pairwise_append]
  refine ⟨h.1, List.pairwise_singleton _ _, ?_⟩
  intro a ha b hb
  rw [List.mem_singleton] at hb
  subst hb
  exact h.2 a ha

theorem bufInv_step (s : BufState) (e : BufEvent) (h : BufInv s) : BufInv (bufStep s e) := by
  cases e with
  | send ipc oracle =>
    constructor
    · exact (bufInv_pairwise_snoc s h).sublist (sendJS_concat_sublist ipc oracle s)
    · intro x hx
      have hx' := (sendJS_concat_sublist ipc oracle s).subset hx
      rw [show bufStep s (BufEvent.send ipc oracle) = sendJS ipc oracle s from rfl,
        sendJS_nextId]
      rcases List.mem_append.1 hx' with h1 | h2
      · exact Nat.lt_succ_of_lt (h.2 x h1)
      · rw [List.mem_singleton] at h2
        subst h2
        exact Nat.lt_succ_self _
  | timer ipc oracle =>
    constructor
    · exact h.1.sublist (timerFlush_concat_sublist ipc oracle s)
    · intro x hx
      have hx' := (timerFlush_concat_sublist ipc oracle s).subset hx
      rw [show bufStep s (BufEvent.timer ipc oracle) = timerFlush ipc oracle s from rfl,
        timerFlush_nextId]
      exact h.2 x hx'

theorem bufInv_runBuf (evs : List BufEvent) : BufInv (runBuf evs) := by
  have main : ∀ (l : List BufEvent) (s : BufState), BufInv s → BufInv (l.foldl bufStep s) := by
    intro l
    induction l with
    | nil => intro s h; exact h
    | cons e t ih =>
      intro s h
      exact ih (bufStep s e) (bufInv_step s e h)
  refine main evs initBuf ⟨?_, ?_⟩
  · simp [initBuf]
  · simp [initBuf]

theorem pairwise_lt_indexOf_lt (l : List Nat) (hl : l.Pairwise (· < ·)) (i j : Nat)
    (hi : i ∈ l) (hj : j ∈ l) (hij : i < j) : l.indexOf i < l.indexOf j := by
  induction l with
  | nil => cases hi
  | cons a t ih =>
    rw [List.pairwise_cons] at hl
    obtain ⟨ha, ht⟩ := hl
    by_cases hia : i = a
    · have hjt : j ∈ t := by
        rcases List.mem_cons.1 hj with hc | hc
        · omega
        · exact hc
      subst hia
      have hja : (i == j) = false := by
        simp only [beq_eq_false_iff_ne, ne_eq]
        omega
      simp [List.indexOf_cons, hja]
    · have hit : i ∈ t := by
        rcases List.mem_cons.1 hi with hc | hc
        · exact absurd hc hia
        · exact hc
      have hai : a < i := ha i hit
      have hja : (a == j) = false := by
        simp only [beq_eq_false_iff_ne, ne_eq]
        omega
      have hia' : (a == i) = false := by
        simp only [beq_eq_false_iff_ne, ne_eq]
        omega
      have hjt : j ∈ t := by
        rcases List.mem_cons.1 hj with hc | hc
        · omega
        · exact hc
      simp only [List.indexOf_cons, hja, hia', cond_false]
      have := ih ht hit hjt
      omega

theorem escCount_append_one (d : String) (es : List Escalation) (e : Escalation) :
    escCount d (es ++ [e]) = escCount d es + e.domains.count d := by
  simp [escCount]

theorem routerInv_processNext (d : String) (s : RouterState) (es : List Escalation)
    (h : routerInv d s es) :
    routerInv d (processNextDomain s).1 (es ++ (processNextDomain s).2) := by
  unfold processNextDomain
  by_cases hc : (s.modalActive || s.domainQueue.isEmpty) = true
  · simpa [hc] using h
  · unfold routerInv at h ⊢
    simpa [hc, escCount_append_one, Escalation.domains] using h

theorem routerInv_step (d : String) (s : RouterState) (es : List Escalation)
    (ev : RouterEvent) (h : routerInv d s es) :
    routerInv d (routerStep s ev).1 (es ++ (routerStep s ev).2) := by
  cases ev with
  | beforeNavigate d' =>
    by_cases hd : d' ∈ s.pendingDomains
    · simpa [routerStep, hd] using h
    · simp only [routerStep, hd, if_false]
      obtain ⟨h1, h2⟩ := h
      by_cases hdd : d = d'
      · subst hdd
        have hzero : escCount d es + s.domainQueue.count d = 0 := by
          by_contra hnz
          exact hd (h2 (by omega))
        unfold routerInv
        constructor
        · simp [escCount_append_one, Escalation.domains, List.count_singleton']
          omega
        · intro _
          exact List.mem_cons_self d s.pendingDomains
      · unfold routerInv
        constructor
        · simpa [escCount_append_one, Escalation.domains, List.count_singleton', hdd] using h1
        · intro hge
          refine List.mem_cons_of_mem d' (h2 ?_)
          simpa [escCount_append_one, Escalation.domains, List.count_singleton', hdd] using hge
  | unknownDomain d' =>
    by_cases hd : d' ∈ s.pendingDomains
    · simpa [routerStep, hd] using h
    · simp only [routerStep, hd, if_false]
      obtain ⟨h1, h2⟩ := h
      by_cases hdd : d = d'
      · subst hdd
        have hzero : escCount d es + s.domainQueue.count d = 0 := by
          by_contra hnz
          exact hd (h2 (by omega))
        unfold routerInv
        constructor
        · simp [List.count_append, List.count_singleton']
          omega
        · intro _
          exact List.mem_cons_self d s.pendingDomains
      · unfold routerInv
        constructor
        · simpa [List.count_append, List.count_singleton', hdd] using h1
        · intro hge
          refine List.mem_cons_of_mem d' (h2 ?_)
          simpa [List.count_append, List.count_singleton', hdd] using hge
  | timerFire =>
    simp only [routerStep]
    by_cases ht : s.timerSet = true
    · simp only [ht, if_true]
      exact routerInv_processNext d { s with timerSet := false } es h
    · simpa [ht] using h
  | modalResolved =>
    simp only [routerStep]
    exact routerInv_processNext d { s with modalActive := false } es h

theorem routerInv_run (d : String) (evs : List RouterEvent) :
    routerInv d (runRouter initRouter evs).1 (runRouter initRouter evs).2 := by
  have main : ∀ (l : List RouterEvent) (p : RouterState × List Escalation),
      routerInv d p.1 p.2 → routerInv d (l.foldl runStep p).1 (l.foldl runStep p).2 := by
    intro l
    induction l with
    | nil => intro p h; exact h
    | cons e t ih =>
      intro p h
      exact ih (runStep p e) (routerInv_step d p.1 p.2 e h)
  refine main evs (initRouter, []) ⟨?_, ?_⟩
  · simp [escCount, initRouter]
  · intro hge
    simp [escCount, initRouter] at hge

theorem isNameChar_replace (c : Char) :
    isNameChar (if isNameChar c then c else '-') = true := by
  by_cases h : isNameChar c = true
  · rw [if_pos h]
    exact h
  · rw [if_neg h]
    decide

theorem normalizeName_eq_empty_iff (s : String) :
    normalizeName s = "" ↔ jsTrim s = "" := by
  rw [String.ext_iff, String.ext_iff]
  show (((jsTrim s).data.map Char.toLower).map fun c => if isNameChar c then c else '-') = []
    ↔ (jsTrim s).data = []
  simp [List.map_eq_nil_iff]

theorem map_map_const {α β γ : Type*} (f : α → β) (g : β → γ) (b : γ)
    (h : ∀ a, g (f a) = b) (l : List α) :
    (l.map f).map g = List.replicate l.length b := by
  induction l with
  | nil => rfl
  | cons x t ih => simp [List.replicate_succ, h, ih]

theorem sendTryBlock_keeps_entry (ipc : Bool) (oracle : List Bool)
    (buffer delivered : List Nat) (entry : Nat) (b d : List Nat)
    (h : sendTryBlock ipc oracle buffer delivered entry = Except.ok (b, d)) :
    entry ∈ b ∨ entry ∈ d := by
  unfold sendTryBlock at h
  by_cases hip : ipc = true
  · rw [if_pos hip] at h
    by_cases ht : (flushLoop buffer oracle).threw = true
    · rw [if_pos ht] at h
      cases h
    · rw [if_neg ht] at h
      by_cases ho : (flushLoop buffer oracle).remOracle.headD true = true
      · rw [if_pos ho] at h
        injection h with h'
        obtain ⟨hb, hd⟩ := Prod.ext_iff.mp h'
        have hd' : delivered ++ (flushLoop buffer oracle).flushed ++ [entry] = d := hd
        right
        rw [← hd']
        simp
      · rw [if_neg ho] at h
        cases h
  · rw [if_neg hip] at h
    injection h with h'
    obtain ⟨hb, hd⟩ := Prod.ext_iff.mp h'
    have hb' : buffer ++ [entry] = b := hb
    left
    rw [← hb']
    simp

/-! ## Claim theorems -/

/-- C1: for every two exchanges passed to the delivery buffer's enqueue
operation (`send`) in some order, whenever both reach the sink the earlier
one is delivered strictly before the later one — across any interleaving of
enqueues (with or without the IPC bridge available, with invokes succeeding
or throwing) and retry-timer ticks, the delivered sequence preserves global
arrival order, buffered entries being drained in arrival order ahead of any
newly enqueued entry. -/
theorem delivery_preserves_arrival_order (evs : List BufEvent) (i j : Nat)
    (hij : i < j) (hi : i ∈ (runBuf evs).delivered) (hj : j ∈ (runBuf evs).delivered) :
    (runBuf evs).delivered.indexOf i < (runBuf evs).delivered.indexOf j := by
  have hinv := bufInv_runBuf evs
  have hp : (runBuf evs).delivered.Pairwise (· < ·) :=
    hinv.1.sublist (List.sublist_append_left _ _)
  exact pairwise_lt_indexOf_lt _ hp i j hi hj hij

/-- Witness for C1: entry 0 is enqueued while the IPC bridge is absent and
buffered; entry 1 is enqueued once the bridge is up, which drains entry 0
first; 0 is delivered strictly before 1. -/
theorem delivery_preserves_arrival_order_witness :
    (0 : Nat) < 1 ∧
    0 ∈ (runBuf [BufEvent.send false [], BufEvent.send true []]).delivered ∧
    1 ∈ (runBuf [BufEvent.send false [], BufEvent.send true []]).delivered ∧
    (runBuf [BufEvent.send false [], BufEvent.send true []]).delivered.indexOf 0 <
      (runBuf [BufEvent.send false [], BufEvent.send true []]).delivered.indexOf 1 :=
  ⟨by decide, by decide, by decide,
    delivery_preserves_arrival_order [BufEvent.send false [], BufEvent.send true []]
      0 1 (by decide) (by decide) (by decide)⟩

/-- C2 (counterexample): one XMLHttpRequest send is not captured as exactly
one entry — even on a freshly created object the wrapped send emits two
(an `xhr-start` entry immediately, then the `xhr` entry on `loadend`), and
a reused object emits more still, one final entry per accumulated
listener. -/
theorem xhr_extra_start_entry_counterexample :
    (xhrOperation [] "GET" "https://api.example.com/v1" [] none 0
      ⟨200, "OK", "", ""⟩ 5 "t0" "t1").2.length ≠ 1 := by
  decide

/-- C2 (amended): a fetch call produces exactly one Exchange, after the
operation completes or fails.  An XMLHttpRequest send emits one
provisional `xhr-start` record immediately (status 0, statusText
"pending"), plus — because every wrapped send registers another persistent
loadend listener — one final `xhr` Exchange carrying the outcome per
listener accumulated on the object when its loadend fires: exactly one
final Exchange for the first send on a fresh object, more for a send on a
reused one. -/
theorem exchange_per_operation_amended (args : FetchArgs) (textOk : Bool)
    (dur : Nat) (ts : String) (outcome : FetchOutcome)
    (prev : List XhrClosure) (m u : String) (hdrs : List (String × String))
    (body : Option String) (t0 : Nat) (xout : XhrOutcome) (now : Nat)
    (ts0 ts1 : String) :
    (fetchWrapper args textOk dur ts outcome).2.length = 1 ∧
    (xhrOperation prev m u hdrs body t0 xout now ts0 ts1).2.map Entry.type
      = "xhr-start" :: List.replicate (prev.length + 1) "xhr" ∧
    (xhrOperation prev m u hdrs body t0 xout now ts0 ts1).2.map Entry.statusText
      = "pending" :: List.replicate (prev.length + 1) xout.statusText ∧
    (xhrOperation prev m u hdrs body t0 xout now ts0 ts1).2.map Entry.status
      = 0 :: List.replicate (prev.length + 1) xout.status ∧
    (xhrOperation [] m u hdrs body t0 xout now ts0 ts1).2.length = 2 := by
  refine ⟨?_, ?_, ?_, ?_, rfl⟩
  · cases outcome <;> rfl
  · show ("xhr-start" : String) :: List.map Entry.type (List.map
      (fun c => xhrLoadendEntry m u hdrs c xout now ts1) (prev ++ [⟨t0, body⟩]))
      = "xhr-start" :: List.replicate (prev.length + 1) "xhr"
    rw [map_map_const (fun c => xhrLoadendEntry m u hdrs c xout now ts1)
      Entry.type "xhr" (fun c => rfl) (prev ++ [XhrClosure.mk t0 body])]
    simp
  · show ("pending" : String) :: List.map Entry.statusText (List.map
      (fun c => xhrLoadendEntry m u hdrs c xout now ts1) (prev ++ [⟨t0, body⟩]))
      = "pending" :: List.replicate (prev.length + 1) xout.statusText
    rw [map_map_const (fun c => xhrLoadendEntry m u hdrs c xout now ts1)
      Entry.statusText xout.statusText (fun c => rfl) (prev ++ [XhrClosure.mk t0 body])]
    simp
  · show (0 : Nat) :: List.map Entry.status (List.map
      (fun c => xhrLoadendEntry m u hdrs c xout now ts1) (prev ++ [⟨t0, body⟩]))
      = 0 :: List.replicate (prev.length + 1) xout.status
    rw [map_map_const (fun c => xhrLoadendEntry m u hdrs c xout now ts1)
      Entry.status xout.status (fun c => rfl) (prev ++ [XhrClosure.mk t0 body])]
    simp

/-- C3: the wrapped fetch is observably equivalent to the unwrapped
primitive for its caller — on success it returns the very response the
underlying fetch produced, on failure it rethrows the original error
unchanged; capture never alters the returned value. -/
theorem fetch_wrapper_transparent (args : FetchArgs) (textOk : Bool)
    (dur : Nat) (ts : String) (outcome : FetchOutcome) :
    (fetchWrapper args textOk dur ts outcome).1 = outcome.toResult := by
  cases outcome <;> rfl

/-- C4: when the underlying fetch fails, the observer still emits exactly
one Exchange, with status 0 and the failure reason (`err.message`) in
`statusText`, and the caller-visible result is the original error rethrown
— captured, never suppressed. -/
theorem fetch_failure_zero_status_and_rethrow (args : FetchArgs) (textOk : Bool)
    (dur : Nat) (ts : String) (e : JsError) :
    (fetchWrapper args textOk dur ts (FetchOutcome.err e)).1 = Except.error e ∧
    ∃ en : Entry, (fetchWrapper args textOk dur ts (FetchOutcome.err e)).2 = [en] ∧
      en.status = 0 ∧ en.statusText = e.message :=
  ⟨rfl, _, rfl, rfl, rfl⟩

/-- C5: `send(exchange)` never raises to its caller: every exception path of
its try block (IPC bridge absent is not even an exception; an invoke throw
is) ends in the catch handler, which appends the exchange to the in-memory
buffer and returns normally — so in every case the exchange ends up
delivered or buffered, and whenever the try block raises, the resulting
state is exactly the raise-time state with the exchange pushed onto the
buffer. -/
theorem enqueue_never_raises (ipc : Bool) (oracle : List Bool) (s : BufState) :
    (s.nextId ∈ (sendJS ipc oracle s).delivered ∨ s.nextId ∈ (sendJS ipc oracle s).buffer)
    ∧ ∀ b d, sendTryBlock ipc oracle s.buffer s.delivered s.nextId = Except.error (b, d) →
        sendJS ipc oracle s = ⟨b ++ [s.nextId], d, s.nextId + 1⟩ := by
  constructor
  · unfold sendJS
    cases hsb : sendTryBlock ipc oracle s.buffer s.delivered s.nextId with
    | ok p =>
      obtain ⟨b, d⟩ := p
      rcases sendTryBlock_keeps_entry ipc oracle s.buffer s.delivered s.nextId b d hsb
        with hm | hm
      · right
        simpa using hm
      · left
        simpa using hm
    | error p =>
      obtain ⟨b, d⟩ := p
      right
      simp
  · intro b d hbd
    simp [sendJS, hbd]

/-- Witness for C5: with the bridge up but the invoke throwing, `send`
returns normally and the exchange sits in the buffer. -/
theorem enqueue_never_raises_witness :
    ((0 : Nat) ∈ (sendJS true [false] ⟨[], [], 0⟩).delivered ∨
      0 ∈ (sendJS true [false] ⟨[], [], 0⟩).buffer) ∧
    sendJS true [false] ⟨[], [], 0⟩ = ⟨[] ++ [0], [], 1⟩ :=
  ⟨(enqueue_never_raises true [false] ⟨[], [], 0⟩).1,
    (enqueue_never_raises true [false] ⟨[], [], 0⟩).2 [] [] rfl⟩

/-- C6: the fallback resource-timing observer never emits an entry for a URL
a primary observer already captured — for any performance entry whose URL is
in the captured-URL set, `emitPerfEntry` sends nothing. -/
theorem perf_fallback_suppresses_captured_urls (capturedUrls : List String)
    (e : PerfEntry) (ts : String) (h : e.name ∈ capturedUrls) :
    emitPerfEntry capturedUrls e ts = none := by
  unfold emitPerfEntry
  by_cases hi : e.initiatorType ≠ "xmlhttprequest" ∧ e.initiatorType ≠ "fetch"
  · rw [if_pos hi]
  · rw [if_neg hi, if_pos h]

/-- Witness for C6: a fetch-initiated perf entry whose URL the fetch wrapper
already captured produces no entry. -/
theorem perf_fallback_suppresses_captured_urls_witness :
    ("https://api.example.com/v1" : String) ∈ ["https://api.example.com/v1"] ∧
    emitPerfEntry ["https://api.example.com/v1"]
      ⟨"fetch", "https://api.example.com/v1", 200, 10, 0⟩ "t" = none :=
  ⟨by decide,
    perf_fallback_suppresses_captured_urls ["https://api.example.com/v1"]
      ⟨"fetch", "https://api.example.com/v1", 200, 10, 0⟩ "t" (by decide)⟩

/-- C7: over any sequence of UI events from startup — blocking
pre-navigation prompts, batched unknown-domain arrivals, batch-timer
expiries, modal resolutions — a given domain is named by an escalation at
most once: once it enters `pendingDomains`, every later event naming it is
silently absorbed, and nothing ever removes it, so a resolved domain never
re-escalates. -/
theorem escalation_raised_at_most_once (evs : List RouterEvent) (d : String) :
    escCount d (runRouter initRouter evs).2 ≤ 1 := by
  have h := routerInv_run d evs
  exact le_trans (Nat.le_add_right _ _) h.1

/-- C8: two distinct unknown domains arriving inside one 1-second debounce
window (no timer expiry between them) produce exactly one batched
escalation, containing both domains. -/
theorem batch_window_single_escalation (s : RouterState) (d1 d2 : String)
    (hne : d1 ≠ d2) (h1 : d1 ∉ s.pendingDomains) (h2 : d2 ∉ s.pendingDomains)
    (hq : s.domainQueue = []) (hm : s.modalActive = false) :
    (runRouter s [RouterEvent.unknownDomain d1, RouterEvent.unknownDomain d2,
      RouterEvent.timerFire]).2 = [Escalation.batched [d1, d2]] := by
  have hne' : d2 ≠ d1 := Ne.symm hne
  simp [runRouter, runStep, routerStep, processNextDomain, h1, h2, hq, hm, hne, hne',
    List.mem_cons]

/-- Witness for C8: two concrete domains through an empty router. -/
theorem batch_window_single_escalation_witness :
    ("a.example.com" : String) ≠ "b.example.com" ∧
    (runRouter initRouter [RouterEvent.unknownDomain "a.example.com",
      RouterEvent.unknownDomain "b.example.com", RouterEvent.timerFire]).2 =
      [Escalation.batched ["a.example.com", "b.example.com"]] :=
  ⟨by decide,
    batch_window_single_escalation initRouter "a.example.com" "b.example.com"
      (by decide) (by decide) (by decide) rfl rfl⟩

/-- C9: whenever the naming-modal submit handler (same code in
`showNamingModal.submit` and `showAddDomainModal.createNew`) passes a name
on to `register_app`, that name is nonempty, drawn from `[a-z0-9-]` only,
and is exactly the documented normalization of the input (trim, lowercase,
replace everything outside `[a-z0-9-]` by `-`) — no further coercion; and
the handler rejects (passes nothing) exactly when the input normalizes to
the empty string, i.e. trims to empty. -/
theorem register_name_normalized (input : String) :
    (∀ n, submitName input = some n →
      n ≠ "" ∧ n.data.all isNameChar = true ∧ n = normalizeName input) ∧
    (submitName input = none ↔ jsTrim input = "") := by
  constructor
  · intro n hn
    unfold submitName at hn
    by_cases hz : normalizeName input = ""
    · simp [hz] at hn
    · simp only [hz, if_false, Option.some.injEq] at hn
      subst hn
      refine ⟨hz, ?_, rfl⟩
      show (((jsTrim input).data.map Char.toLower).map
        fun c => if isNameChar c then c else '-').all isNameChar = true
      simp only [List.all_eq_true, List.mem_map]
      rintro c ⟨c', _, rfl⟩
      exact isNameChar_replace c'
  · unfold submitName
    by_cases hz : normalizeName input = ""
    · simp only [hz, if_pos rfl]
      simp [← normalizeName_eq_empty_iff, hz]
    · simp only [hz, if_neg hz]
      constructor
      · intro hc
        exact absurd hc (by simp)
      · intro ht
        exact absurd (normalizeName_eq_empty_iff input |>.2 ht) hz

/-- Witness for C9: a mixed-case input with a space and punctuation is
passed on as its exact normalization. -/
theorem register_name_normalized_witness :
    ("my-app-" : String) ≠ "" ∧ ("my-app-" : String).data.all isNameChar = true ∧
    ("my-app-" : String) = normalizeName "  My App!" :=
  (register_name_normalized "  My App!").1 "my-app-" (by decide)

end Harharhar
